import Mathlib

/-!
Shallow embedding of `src/a_memory-address/stack_heap.c`.

The program is a straight-line C `main`:

    int global_var = 42;
    int main() {
        int stack_var = 10;
        int *heap_var = malloc(sizeof(int));
        *heap_var = 20;
        printf("Address of stack_var: %p\n", (void*)&stack_var);
        printf("Address of heap_var: %p\n", (void*)heap_var);
        printf("Address of global_var: %p\n", (void*)&global_var);
        free(heap_var);
        return 0;
    }

We model it as a small-step interpreter over a list of statements.  All
implementation-defined aspects (which addresses the platform assigns to the
three objects, whether `malloc` succeeds, and how `%p` renders an address)
are collected in an `Env` record that parameterises every run.  A store
through a pointer that is not a live heap cell (in particular through the
null pointer returned by a failed `malloc`) is undefined behaviour and is
modelled as a `crashed` terminal status.
-/

/-- Observable events of a run: heap allocation, a store through a heap
pointer, an address being printed, and a heap release. -/
inductive Event where
  | alloc (addr : Nat)
  | store (addr : Nat) (v : Int)
  | printAddr (name : String) (addr : Nat)
  | free (addr : Nat)
  deriving DecidableEq, Repr

/-- Tests whether an event is an `Event.alloc`. -/
def Event.isAlloc : Event → Bool
  | .alloc _ => true
  | _ => false

/-- Tests whether an event is an `Event.free`. -/
def Event.isFree : Event → Bool
  | .free _ => true
  | _ => false

/-- The implementation-defined execution environment of one run: the
addresses the platform gives to `stack_var` and `global_var`, the result of
the single `malloc` call (`none` models allocation failure, i.e. `malloc`
returning `NULL`), and the rendering of an address by `printf`'s `%p`. -/
structure Env where
  stackAddr : Nat
  globalAddr : Nat
  mallocResult : Option Nat
  fmt : Nat → String

/-- Well-formedness of the environment, as guaranteed by the C abstract
machine: live objects have distinct non-null addresses, and a successful
`malloc` returns a non-null address distinct from the other two objects. -/
def Env.wf (e : Env) : Prop :=
  e.stackAddr ≠ 0 ∧ e.globalAddr ≠ 0 ∧ e.stackAddr ≠ e.globalAddr ∧
    ∀ a, e.mallocResult = some a →
      a ≠ 0 ∧ a ≠ e.stackAddr ∧ a ≠ e.globalAddr

/-- The mutable state of the program: the two locals of `main`, the live
heap cells, the global, the lines written to standard output (in order),
and the trace of observable events (in order). -/
structure State where
  stack_var : Int
  heap_var : Nat
  heap : List (Nat × Int)
  global_var : Int
  output : List String
  events : List Event
  deriving Repr

/-- Value stored at address `a`, if `a` is a live heap cell. -/
def heapLookup (h : List (Nat × Int)) (a : Nat) : Option Int :=
  (h.find? (fun p => p.1 = a)).map (fun p => p.2)

/-- Overwrite the live heap cell at address `a` with `v`. -/
def heapStore (h : List (Nat × Int)) (a : Nat) (v : Int) : List (Nat × Int) :=
  h.map (fun p => if p.1 = a then (a, v) else p)

/-- Remove the heap cell at address `a`. -/
def heapRelease (h : List (Nat × Int)) (a : Nat) : List (Nat × Int) :=
  h.filter (fun p => p.1 ≠ a)

/-- Run status: still executing, returned from `main` with an exit code, or
hit undefined behaviour (modelled as a crash). -/
inductive Status where
  | running
  | exited (code : Int)
  | crashed
  deriving DecidableEq, Repr

/-- The statements of `main`, one constructor per source statement. -/
inductive Stmt where
  | declStack (v : Int)
  | mallocHeap
  | storeHeap (v : Int)
  | printAddrStack
  | printAddrHeap
  | printAddrGlobal
  | freeHeap
  | ret (code : Int)
  deriving DecidableEq, Repr

/-- Effect of one statement on the state, together with the resulting
status.  `storeHeap` through a pointer that is not a live cell (e.g. the
null pointer after a failed `malloc`) crashes; `free` of a null pointer is
a no-op (as in C); `free` of a non-null dead pointer crashes. -/
def execStmt (e : Env) (s : Stmt) (st : State) : State × Status :=
  match s with
  | .declStack v => ({ st with stack_var := v }, .running)
  | .mallocHeap =>
    match e.mallocResult with
    | some a =>
      ({ st with heap_var := a, heap := st.heap ++ [(a, 0)],
                 events := st.events ++ [.alloc a] }, .running)
    | none => ({ st with heap_var := 0 }, .running)
  | .storeHeap v =>
    match heapLookup st.heap st.heap_var with
    | some _ =>
      ({ st with heap := heapStore st.heap st.heap_var v,
                 events := st.events ++ [.store st.heap_var v] }, .running)
    | none => (st, .crashed)
  | .printAddrStack =>
    ({ st with output := st.output ++ ["Address of stack_var: " ++ e.fmt e.stackAddr],
               events := st.events ++ [.printAddr "stack_var" e.stackAddr] }, .running)
  | .printAddrHeap =>
    ({ st with output := st.output ++ ["Address of heap_var: " ++ e.fmt st.heap_var],
               events := st.events ++ [.printAddr "heap_var" st.heap_var] }, .running)
  | .printAddrGlobal =>
    ({ st with output := st.output ++ ["Address of global_var: " ++ e.fmt e.globalAddr],
               events := st.events ++ [.printAddr "global_var" e.globalAddr] }, .running)
  | .freeHeap =>
    if st.heap_var = 0 then (st, .running)
    else
      match heapLookup st.heap st.heap_var with
      | some _ =>
        ({ st with heap := heapRelease st.heap st.heap_var,
                   events := st.events ++ [.free st.heap_var] }, .running)
      | none => (st, .crashed)
  | .ret c => (st, .exited c)

/-- A configuration of the small-step machine: remaining statements, the
state, and the status.  A configuration is terminal when its status is not
`running` or no statements remain. -/
structure Config where
  stmts : List Stmt
  st : State
  status : Status

/-- One small step.  `none` means the configuration is terminal.  Falling
off the end of `main` without an explicit return exits with code 0 (C11
semantics for `main`); the program never takes that path since it ends in
an explicit `return 0`. -/
def step (e : Env) (c : Config) : Option Config :=
  match c.status, c.stmts with
  | .running, s :: rest =>
    some ⟨rest, (execStmt e s c.st).1, (execStmt e s c.st).2⟩
  | .running, [] => some ⟨[], c.st, .exited 0⟩
  | _, _ => none

/-- Total step function: terminal configurations step to themselves. -/
def stepF (e : Env) (c : Config) : Config := (step e c).getD c

/-- Iterates the small step `n` times from `c`. -/
def stepN (e : Env) : Nat → Config → Config
  | 0, c => c
  | n + 1, c => stepN e n (stepF e c)

/-- The body of `main`, in source order, with the literals assigned to
`stack_var` and `*heap_var` abstracted (they are `10` and `20` in the
source); the abstraction lets us state that the output does not depend on
them. -/
def programWith (sv hv : Int) : List Stmt :=
  [.declStack sv, .mallocHeap, .storeHeap hv,
   .printAddrStack, .printAddrHeap, .printAddrGlobal,
   .freeHeap, .ret 0]

/-- The body of `main`, exactly as in the source. -/
def program : List Stmt := programWith 10 20

/-- The state at program start: `global_var` carries its static
initialiser, the heap is empty, nothing has been printed. -/
def initState (g : Int) : State :=
  { stack_var := 0, heap_var := 0, heap := [], global_var := g,
    output := [], events := [] }

/-- Initial configuration with abstracted literals (`gv` abstracts the
static initialiser `42` of `global_var`). -/
def initConfigWith (sv hv gv : Int) : Config :=
  ⟨programWith sv hv, initState gv, .running⟩

/-- Initial configuration of the program as written. -/
def initConfig : Config := initConfigWith 10 20 42

/-- The complete run with abstracted literals: the program has 8
statements, so 8 steps always reach a terminal configuration. -/
def runWith (e : Env) (sv hv gv : Int) : Config :=
  stepN e 8 (initConfigWith sv hv gv)

/-- The complete run of the program as written. -/
def run (e : Env) : Config := runWith e 10 20 42

/-- The addresses printed during a run, in print order. -/
def reportedAddrs (tr : List Event) : List Nat :=
  tr.filterMap (fun ev =>
    match ev with
    | .printAddr _ a => some a
    | _ => none)

/-- A concrete well-formed environment in which allocation succeeds, used
to witness the theorems below. -/
def envA : Env :=
  { stackAddr := 1, globalAddr := 2, mallocResult := some 3,
    fmt := fun n => toString n }

/-- A concrete environment in which allocation fails. -/
def envFail : Env :=
  { stackAddr := 1, globalAddr := 2, mallocResult := none,
    fmt := fun n => toString n }

theorem stepN_three (e : Env) (c : Config) :
    stepN e 3 c = stepF e (stepF e (stepF e c)) := rfl

theorem stepN_eight (e : Env) (c : Config) :
    stepN e 8 c =
      stepF e (stepF e (stepF e (stepF e
        (stepF e (stepF e (stepF e (stepF e c))))))) := rfl

/-- Symbolic evaluation of the whole run when `malloc` succeeds with a
non-null address `a`. -/
theorem run_success (e : Env) (sv hv gv : Int) (a : Nat) (ha : a ≠ 0)
    (h : e.mallocResult = some a) :
    runWith e sv hv gv =
      ⟨[], ⟨sv, a, [], gv,
        ["Address of stack_var: " ++ e.fmt e.stackAddr,
         "Address of heap_var: " ++ e.fmt a,
         "Address of global_var: " ++ e.fmt e.globalAddr],
        [.alloc a, .store a hv, .printAddr "stack_var" e.stackAddr,
         .printAddr "heap_var" a, .printAddr "global_var" e.globalAddr,
         .free a]⟩, .exited 0⟩ := by
  simp [runWith, stepN_eight, stepF, step, execStmt, initConfigWith, initState,
        programWith, heapLookup, heapStore, heapRelease, h, ha]

/-- Symbolic evaluation of the whole run when `malloc` fails: the program
stores through the null pointer unconditionally and crashes, with nothing
printed. -/
theorem run_failure (e : Env) (sv hv gv : Int) (h : e.mallocResult = none) :
    runWith e sv hv gv =
      ⟨[.printAddrStack, .printAddrHeap, .printAddrGlobal, .freeHeap, .ret 0],
       ⟨sv, 0, [], gv, [], []⟩, .crashed⟩ := by
  simp [runWith, stepN_eight, stepF, step, execStmt, initConfigWith, initState,
        programWith, heapLookup, heapStore, heapRelease, h]

/-- Symbolic evaluation when `malloc` returns the null address (a
degenerate environment excluded by `Env.wf`): the store still finds the
cell, `free(NULL)` is a no-op, and the run exits 0. -/
theorem run_success_null (e : Env) (sv hv gv : Int)
    (h : e.mallocResult = some 0) :
    runWith e sv hv gv =
      ⟨[], ⟨sv, 0, [(0, hv)], gv,
        ["Address of stack_var: " ++ e.fmt e.stackAddr,
         "Address of heap_var: " ++ e.fmt 0,
         "Address of global_var: " ++ e.fmt e.globalAddr],
        [.alloc 0, .store 0 hv, .printAddr "stack_var" e.stackAddr,
         .printAddr "heap_var" 0, .printAddr "global_var" e.globalAddr]⟩,
       .exited 0⟩ := by
  simp [runWith, stepN_eight, stepF, step, execStmt, initConfigWith, initState,
        programWith, heapLookup, heapStore, heapRelease, h]

/-- Symbolic evaluation of the first three statements (declaration,
allocation, store) when `malloc` succeeds: the configuration just after
the assignments and before any printing or release. -/
theorem mid_success (e : Env) (a : Nat) (h : e.mallocResult = some a) :
    stepN e 3 initConfig =
      ⟨[.printAddrStack, .printAddrHeap, .printAddrGlobal, .freeHeap, .ret 0],
       ⟨10, a, [(a, 20)], 42, [], [.alloc a, .store a 20]⟩, .running⟩ := by
  simp [stepN_three, stepF, step, execStmt, initConfig, initConfigWith,
        initState, programWith, heapLookup, heapStore, h]

theorem envA_wf : envA.wf := by
  refine ⟨by decide, by decide, by decide, ?_⟩
  intro a ha
  simp only [envA, Option.some.injEq] at ha
  subst ha
  exact ⟨by decide, by decide, by decide⟩

theorem envFail_wf : envFail.wf := by
  refine ⟨by decide, by decide, by decide, ?_⟩
  intro a ha
  simp [envFail] at ha

/-- C1: when allocation succeeds, the run writes exactly three lines to
standard output, in the fixed order stack_var, heap_var, global_var, each
of the form `Address of <name>: <pointer-formatted address>`. -/
theorem output_three_lines (e : Env) (a : Nat) (hw : e.wf)
    (h : e.mallocResult = some a) :
    (run e).st.output =
      ["Address of stack_var: " ++ e.fmt e.stackAddr,
       "Address of heap_var: " ++ e.fmt a,
       "Address of global_var: " ++ e.fmt e.globalAddr] := by
  have ha := (hw.2.2.2 a h).1
  rw [run, run_success e 10 20 42 a ha h]

theorem output_three_lines_witness :
    (run envA).st.output =
      ["Address of stack_var: " ++ envA.fmt envA.stackAddr,
       "Address of heap_var: " ++ envA.fmt 3,
       "Address of global_var: " ++ envA.fmt envA.globalAddr] :=
  output_three_lines envA 3 envA_wf rfl

/-- C2: after the assignments and before the release (three statements
into the run), the automatic value equals 10, the value read back from the
dynamically-allocated slot equals 20, and the static value equals 42. -/
theorem values_in_place (e : Env) (a : Nat) (h : e.mallocResult = some a) :
    (stepN e 3 initConfig).st.stack_var = 10 ∧
    heapLookup (stepN e 3 initConfig).st.heap
        (stepN e 3 initConfig).st.heap_var = some 20 ∧
    (stepN e 3 initConfig).st.global_var = 42 := by
  rw [mid_success e a h]
  simp [heapLookup]

theorem values_in_place_witness :
    (stepN envA 3 initConfig).st.stack_var = 10 ∧
    heapLookup (stepN envA 3 initConfig).st.heap
        (stepN envA 3 initConfig).st.heap_var = some 20 ∧
    (stepN envA 3 initConfig).st.global_var = 42 :=
  values_in_place envA 3 rfl

/-- C6: when allocation succeeds the process terminates with exit status
0, and no exit code other than 0 is produced on that path. -/
theorem exit_status_zero (e : Env) (a : Nat) (hw : e.wf)
    (h : e.mallocResult = some a) :
    (run e).status = Status.exited 0 ∧
    ∀ c : Int, (run e).status = Status.exited c → c = 0 := by
  have ha := (hw.2.2.2 a h).1
  rw [run, run_success e 10 20 42 a ha h]
  exact ⟨rfl, fun c hc => by
    simpa using hc.symm⟩

theorem exit_status_zero_witness :
    (run envA).status = Status.exited 0 ∧
    ∀ c : Int, (run envA).status = Status.exited c → c = 0 :=
  exit_status_zero envA 3 envA_wf rfl

/-- C3: when allocation succeeds, the run performs exactly one allocation
and exactly one release, of the same address; the release is the last
event (hence after the allocation's last use), the heap is empty at exit,
and the run ends in a normal exit. -/
theorem allocation_release_discipline (e : Env) (a : Nat) (hw : e.wf)
    (h : e.mallocResult = some a) :
    (run e).st.events.filter Event.isAlloc = [Event.alloc a] ∧
    (run e).st.events.filter Event.isFree = [Event.free a] ∧
    (run e).st.events.getLast? = some (Event.free a) ∧
    (run e).st.heap = [] ∧
    (run e).status = Status.exited 0 := by
  have ha := (hw.2.2.2 a h).1
  rw [run, run_success e 10 20 42 a ha h]
  refine ⟨?_, ?_, ?_, rfl, rfl⟩ <;>
    simp [Event.isAlloc, Event.isFree, List.getLast?]

theorem allocation_release_discipline_witness :
    (run envA).st.events.filter Event.isAlloc = [Event.alloc 3] ∧
    (run envA).st.events.filter Event.isFree = [Event.free 3] ∧
    (run envA).st.events.getLast? = some (Event.free 3) ∧
    (run envA).st.heap = [] ∧
    (run envA).status = Status.exited 0 :=
  allocation_release_discipline envA 3 envA_wf rfl

/-- C4: the allocation result is used with no success check, so the run is
safe exactly when allocation succeeds: it crashes (undefined behaviour at
the unconditional store) if and only if `malloc` fails. -/
theorem unchecked_allocation (e : Env) (hw : e.wf) :
    (run e).status = Status.crashed ↔ e.mallocResult = none := by
  rcases hm : e.mallocResult with _ | a
  · rw [run, run_failure e 10 20 42 hm]
    simp
  · have ha := (hw.2.2.2 a hm).1
    rw [run, run_success e 10 20 42 a ha hm]
    simp

theorem unchecked_allocation_witness :
    (run envFail).status = Status.crashed ↔ envFail.mallocResult = none :=
  unchecked_allocation envFail envFail_wf

/-- C5: within a single run with successful allocation, the three
addresses reported on standard output are pairwise distinct. -/
theorem reported_addresses_distinct (e : Env) (a : Nat) (hw : e.wf)
    (h : e.mallocResult = some a) :
    (reportedAddrs (run e).st.events).Nodup := by
  obtain ⟨hs0, hg0, hsg, hm⟩ := hw
  obtain ⟨ha0, has, hag⟩ := hm a h
  rw [run, run_success e 10 20 42 a ha0 h]
  simp [reportedAddrs]
  refine ⟨⟨fun hc => has hc.symm, hsg⟩, hag⟩

theorem reported_addresses_distinct_witness :
    (reportedAddrs (run envA).st.events).Nodup :=
  reported_addresses_distinct envA 3 envA_wf rfl

/-- C7: the run consumes no input: it is a function of the environment
alone, and two runs whose platforms render the three addresses the same
way produce identical output and identical exit status. -/
theorem no_input_determinism (e1 e2 : Env) (a1 a2 : Nat)
    (hw1 : e1.wf) (hw2 : e2.wf)
    (h1 : e1.mallocResult = some a1) (h2 : e2.mallocResult = some a2)
    (hs : e1.fmt e1.stackAddr = e2.fmt e2.stackAddr)
    (hh : e1.fmt a1 = e2.fmt a2)
    (hg : e1.fmt e1.globalAddr = e2.fmt e2.globalAddr) :
    (run e1).st.output = (run e2).st.output ∧
    (run e1).status = (run e2).status := by
  have ha1 := (hw1.2.2.2 a1 h1).1
  have ha2 := (hw2.2.2.2 a2 h2).1
  rw [run, run, run_success e1 10 20 42 a1 ha1 h1,
      run_success e2 10 20 42 a2 ha2 h2]
  exact ⟨by simp [hs, hh, hg], rfl⟩

theorem no_input_determinism_witness :
    (run envA).st.output = (run envA).st.output ∧
    (run envA).status = (run envA).status :=
  no_input_determinism envA envA 3 3 envA_wf envA_wf rfl rfl rfl rfl rfl

/-- In every environment the machine is terminal after 8 small steps: the
program is a straight-line sequence with no loops or recursion. -/
theorem terminal_after_eight (e : Env) :
    step e (stepN e 8 initConfig) = none := by
  rcases hm : e.mallocResult with _ | a
  · rw [show stepN e 8 initConfig = runWith e 10 20 42 from rfl,
        run_failure e 10 20 42 hm]
    rfl
  · by_cases ha : a = 0
    · subst ha
      rw [show stepN e 8 initConfig = runWith e 10 20 42 from rfl,
          run_success_null e 10 20 42 hm]
      rfl
    · rw [show stepN e 8 initConfig = runWith e 10 20 42 from rfl,
          run_success e 10 20 42 a ha hm]
      rfl

/-- C8: every invocation terminates — after the 8 statements the machine
has no further step, in every environment — and when allocation succeeds
the straight-line path ends in the terminal state of successful exit. -/
theorem straight_line_terminates (e : Env) (a : Nat) (hw : e.wf)
    (h : e.mallocResult = some a) :
    (∀ e2 : Env, step e2 (stepN e2 8 initConfig) = none) ∧
    (stepN e 8 initConfig).status = Status.exited 0 := by
  refine ⟨terminal_after_eight, ?_⟩
  have ha := (hw.2.2.2 a h).1
  rw [show stepN e 8 initConfig = runWith e 10 20 42 from rfl,
      run_success e 10 20 42 a ha h]

theorem straight_line_terminates_witness :
    (∀ e2 : Env, step e2 (stepN e2 8 initConfig) = none) ∧
    (stepN envA 8 initConfig).status = Status.exited 0 :=
  straight_line_terminates envA 3 envA_wf rfl

/-- One small step never changes `global_var`. -/
theorem stepF_global_var (e : Env) (c : Config) :
    (stepF e c).st.global_var = c.st.global_var := by
  rcases c with ⟨stmts, st, status⟩
  cases status <;> cases stmts <;>
    simp only [stepF, step, Option.getD_some, Option.getD_none]
  case running.cons s rest =>
    cases s <;> simp only [execStmt]
    case mallocHeap => rcases e.mallocResult with _ | a <;> rfl
    case storeHeap v => rcases heapLookup st.heap st.heap_var with _ | w <;> rfl
    case freeHeap =>
      by_cases h0 : st.heap_var = 0
      · simp [h0]
      · simp only [h0, if_false]
        rcases heapLookup st.heap st.heap_var with _ | w <;> rfl

/-- Iterating the machine never changes `global_var`. -/
theorem stepN_global_var (e : Env) (n : Nat) (c : Config) :
    (stepN e n c).st.global_var = c.st.global_var := by
  induction n generalizing c with
  | zero => rfl
  | succ n ih => rw [show stepN e (n + 1) c = stepN e n (stepF e c) from rfl,
      ih (stepF e c), stepF_global_var]

/-- C9: `global_var` is never written after its static initialisation —
at every step count `n` of every run it still holds 42. -/
theorem global_var_never_written (e : Env) (n : Nat) :
    (stepN e n initConfig).st.global_var = 42 := by
  rw [stepN_global_var]
  rfl

/-- C10: the assigned literals never flow into the output: for any choice
of the three assigned values, in any environment, the standard-output text
of the run is unchanged. -/
theorem values_never_printed (e : Env) (sv hv gv sv2 hv2 gv2 : Int) :
    (runWith e sv hv gv).st.output = (runWith e sv2 hv2 gv2).st.output := by
  rcases hm : e.mallocResult with _ | a
  · rw [run_failure e sv hv gv hm, run_failure e sv2 hv2 gv2 hm]
  · by_cases ha : a = 0
    · subst ha
      rw [run_success_null e sv hv gv hm, run_success_null e sv2 hv2 gv2 hm]
    · rw [run_success e sv hv gv a ha hm, run_success e sv2 hv2 gv2 a ha hm]
